import Mathlib

/-!
Verification of the transfer orchestrator of the `tuit` repository.

This file shallowly embeds the Rust code of `src/transfer/mod.rs`,
`src/transfer/sender.rs` and `src/transfer/receiver.rs` (plus the one
relevant guard of `src/app.rs`) into Lean.  External effects (network,
filesystem, channels, the cancellation token) are supplied by explicit
environment records, and each task's `run` is embedded as a pure function
from its environment to the list of progress events it emits together with
the point at which it returns.

Conventions:
* filesystem paths are lists of components (`FPath := List String`);
* `Instant`s and `Duration`s are nanosecond counts (`Nat`);
* Rust `u64` arithmetic is modelled on `Nat` (no operation here can
  overflow 2^64 for the quantities the program manipulates; subtraction
  sites in the source use `saturating_sub`, which is `Nat` subtraction);
* the one floating-point computation (`SpeedTracker::speed_bps`) is
  modelled with exact integer arithmetic: `duration.as_secs_f64() > 0.1`
  agrees with `span_ns > 100000000` for every whole-nanosecond span
  (the f64 nearest to `1e8/1e9` is the literal `0.1` itself), and the
  final `as u64` cast truncates, i.e. floors, the quotient;
* `format!`-built error strings are abbreviated to stable tags, since no
  claim inspects their text beyond presence.
-/

instance {ε α : Type} [DecidableEq ε] [DecidableEq α] : DecidableEq (Except ε α) :=
  fun x y =>
    match x, y with
    | .ok a, .ok b =>
      if h : a = b then .isTrue (by rw [h]) else .isFalse (by simp [h])
    | .error a, .error b =>
      if h : a = b then .isTrue (by rw [h]) else .isFalse (by simp [h])
    | .ok _, .error _ => .isFalse (by simp)
    | .error _, .ok _ => .isFalse (by simp)

/-- A filesystem path, as its list of components.  `output_dir` is the
component list of the receive task's output directory; `PathBuf::push`
of a separator-free non-empty component appends one component, and
`FPath::starts_with` is component-wise prefix. -/
abbrev FPath := List String

/-- `ConflictResolution` from `src/transfer/mod.rs`. -/
inductive CRes
  | rename
  | overwrite
  | skip
  | cancel
deriving DecidableEq, Repr

/-- `TransferProgress` from `src/transfer/mod.rs`.  `duration_secs` of
`Completed` (an `f64` wall-clock reading) is carried as an opaque `Nat`
tick count taken from the environment. -/
inductive Event
  | preparing (id status : String)
  | connecting (id : String)
  | started (id name : String) (totalBytes : Nat)
  | progress (id : String) (transferredBytes speedBps : Nat)
  | connected (id : String) (isRelay : Bool)
  | ticketReady (id ticket : String)
  | completed (id : String) (totalBytes durTicks : Nat)
  | failed (id error : String)
  | cancelled (id : String)
  | fileConflicts (id : String) (conflicts : List (String × FPath)) (totalBytes : Nat)
  | queued (id : String) (position : Nat)
  | fileList (id : String) (files : List (String × Nat))
deriving DecidableEq, Repr

/-- Terminal events: `Completed`, `Failed`, `Cancelled`. -/
def Event.isTerminal : Event → Bool
  | .completed _ _ _ => true
  | .failed _ _ => true
  | .cancelled _ => true
  | _ => false

/-- A trace fragment containing no terminal event. -/
def noTerm (l : List Event) : Bool := l.all (fun e => !e.isTerminal)

/-! ## Speed tracker (`SpeedTracker`, src/transfer/mod.rs lines 24-68) -/

/-- Rolling-window speed tracker state: chronological `(instant_ns, bytes)`
samples (front = oldest) and the window length in nanoseconds. -/
structure SpeedTracker where
  samples : List (Nat × Nat)
  window : Nat
deriving DecidableEq, Repr

/-- The head-eviction loop of `add_sample`: pop front samples strictly
older than the window, stopping at the first recent one. -/
def dropOld (now window : Nat) : List (Nat × Nat) → List (Nat × Nat)
  | [] => []
  | (t, b) :: rest =>
    if now - t > window then dropOld now window rest else (t, b) :: rest

/-- `SpeedTracker::add_sample` at instant `now`. -/
def SpeedTracker.addSample (tr : SpeedTracker) (now bytes : Nat) : SpeedTracker :=
  { tr with samples := dropOld now tr.window (tr.samples ++ [(now, bytes)]) }

/-- `SpeedTracker::new(Duration::from_secs(5))` (`default_window`). -/
def SpeedTracker.defaultWindow : SpeedTracker := ⟨[], 5000000000⟩

/-- `SpeedTracker::speed_bps`.  `(b2.saturating_sub(b1)) as f64 / duration`
cast `as u64` is the truncated quotient `(b2 - b1) * 1e9 / span_ns`;
`duration > 0.1` is `span_ns > 1e8` (see the header note). -/
def SpeedTracker.speedBps (tr : SpeedTracker) : Nat :=
  if tr.samples.length < 2 then 0
  else
    match tr.samples.head?, tr.samples.getLast? with
    | some (t1, b1), some (t2, b2) =>
      if t2 - t1 > 100000000 then (b2 - b1) * 1000000000 / (t2 - t1) else 0
    | _, _ => 0

/-- Claim C6's words, literally: 0 when fewer than two samples remain or
the span is *under* 100 ms, otherwise the byte delta over the span. -/
def speedSpecClaim (tr : SpeedTracker) : Nat :=
  if tr.samples.length < 2 then 0
  else
    match tr.samples.head?, tr.samples.getLast? with
    | some (t1, b1), some (t2, b2) =>
      if t2 - t1 < 100000000 then 0 else (b2 - b1) * 1000000000 / (t2 - t1)
    | _, _ => 0

/-- Claim C6 as amended: the span must be strictly *over* 100 ms for a
nonzero result (the code zeroes the estimate at a span of exactly 100 ms). -/
def speedSpecAmended (tr : SpeedTracker) : Nat :=
  if tr.samples.length < 2 then 0
  else
    match tr.samples.head?, tr.samples.getLast? with
    | some (t1, b1), some (t2, b2) =>
      if t2 - t1 ≤ 100000000 then 0 else (b2 - b1) * 1000000000 / (t2 - t1)
    | _, _ => 0

/-! ## String helpers

Kernel-evaluable models of the string primitives the source uses.
`String.splitOn` & co. in core are defined by well-founded recursion on
byte positions, which the kernel cannot unfold; these structural versions
have the same semantics (Rust `str::split(c)`, `str::contains(c)`,
`str::starts_with(s)`), over the character list of the string. -/

/-- Accumulator loop for `splitOnChar`. -/
def splitOnCharAux (c : Char) : List Char → List Char → List String
  | [], acc => [String.mk acc.reverse]
  | x :: xs, acc =>
    if x = c then String.mk acc.reverse :: splitOnCharAux c xs []
    else splitOnCharAux c xs (x :: acc)

/-- Rust `str::split(c)`: split on every occurrence of `c`, keeping empty
pieces (`""` splits to `[""]`, `"a//b"` to `["a", "", "b"]`). -/
def splitOnChar (c : Char) (s : String) : List String :=
  splitOnCharAux c s.data []

/-- Rust `str::contains(c)` for a single character. -/
def strContains (s : String) (c : Char) : Bool := s.data.contains c

/-- Rust `str::starts_with(p)`. -/
def strStartsWith (s p : String) : Bool := p.data.isPrefixOf s.data

/-! ## Receiver path sanitization (`ReceiveTask::get_export_path`,
src/transfer/receiver.rs lines 466-493) -/

/-- The per-component validity enforced by `get_export_path`: non-empty,
neither `"."` nor `".."`, and free of both separator characters. -/
def goodComponent (part : String) : Bool :=
  part != "" && part != ".." && part != "." &&
    !strContains part '/' && !strContains part '\\'

/-- The component loop of `get_export_path`: check each part and push it
onto the path, failing on the first bad one. -/
def pushChecked : List String → FPath → Except String FPath
  | [], path => .ok path
  | part :: rest, path =>
    if part = "" then .error "empty path component"
    else if part = ".." || part = "." then .error "path traversal attempt"
    else if strContains part '/' || strContains part '\\' then
      .error "path separator in component"
    else pushChecked rest (path ++ [part])

/-- `ReceiveTask::get_export_path`: split `name` on `/`, validate and join
under `output_dir`, then require the result to start with `output_dir`. -/
def getExportPath (outputDir : FPath) (name : String) : Except String FPath :=
  match pushChecked (splitOnChar '/' name) outputDir with
  | .error e => .error e
  | .ok path =>
    if outputDir.isPrefixOf path then .ok path
    else .error "path escaped output directory"

/-! ## Rename candidates (`ReceiveTask::find_available_path`,
src/transfer/receiver.rs lines 496-521) -/

/-- Join string pieces with a separator (structural `String.intercalate`). -/
def joinWith (sep : String) : List String → String
  | [] => ""
  | [x] => x
  | x :: y :: rest => x ++ sep ++ joinWith sep (y :: rest)

/-- Rust `Path::file_stem` / `Path::extension` on one file-name component:
split at the last `.`; a name whose only dot is leading has no extension. -/
def stemExtOf (f : String) : String × Option String :=
  match splitOnChar '.' f with
  | [] => (f, none)
  | [_] => (f, none)
  | p :: q :: rest =>
    let parts := p :: q :: rest
    let stem := joinWith "." parts.dropLast
    if stem = "" then (f, none) else (stem, some (parts.getLastD ""))

/-- The `k`-th rename candidate for `base`:
`"<stem> (k).<ext>"`, or `"<stem> (k)"` when there is no extension,
in `base`'s parent directory. -/
def renameCandidate (base : FPath) (k : Nat) : FPath :=
  let fileName := base.getLastD ""
  let se := if base.isEmpty then ("file", none) else stemExtOf fileName
  let stem := se.1
  let newName :=
    match se.2 with
    | some e => stem ++ " (" ++ toString k ++ ")." ++ e
    | none => stem ++ " (" ++ toString k ++ ")"
  base.dropLast ++ [newName]

/-- `ReceiveTask::find_available_path` against an existence oracle `fsE`:
return `base` if free, else the first free candidate for `k ∈ [1, 1000)`,
else `base` itself. -/
def findAvailablePath (fsE : FPath → Bool) (base : FPath) : FPath :=
  if !fsE base then base
  else
    match (List.range' 1 999).find? (fun k => !fsE (renameCandidate base k)) with
    | some k => renameCandidate base k
    | none => base

/-- The receiver's per-entry target resolution
(`ReceiveTask::export_collection`, src/transfer/receiver.rs lines 392-409):
`proceed t` exports to `t`, `skip` moves to the next entry, `abort`
returns `Ok(false)` (cancellation). -/
inductive TargetDecision
  | proceed (t : FPath)
  | skipEntry
  | abort
deriving DecidableEq, Repr

/-- Resolve one entry's export target from the base path, the existence
oracle and the chosen `ConflictResolution`. -/
def resolveTarget (fsE : FPath → Bool) (res : CRes) (base : FPath) : TargetDecision :=
  if fsE base then
    match res with
    | .rename => .proceed (findAvailablePath fsE base)
    | .overwrite => .proceed base
    | .skip => .skipEntry
    | .cancel => .abort
  else .proceed base

/-! ## Orchestrator, one direction (`run_manager`, src/transfer/mod.rs
lines 201-431)

The send and receive directions of `run_manager` are textually symmetric
(an active `HashMap` keyed by id, a FIFO `Vec` queue, the same
slot/queue/promotion/cancel logic); the model below is that common
direction.  Task handles and cancellation tokens are abstracted to task
tokens (`Nat`), drawn from a counter; `spawned` is the ledger of every
`tokio::spawn`ed task.  Only the events this direction itself emits
(`Queued`, and `Cancelled` for a queued id) are tracked. -/

inductive MEvent
  | queued (id : String) (position : Nat)
  | cancelledQ (id : String)
deriving DecidableEq, Repr

/-- Orchestrator state for one direction. -/
structure MState where
  active : List (String × Nat)
  queue : List String
  nextTask : Nat
  spawned : List (String × Nat)
  events : List MEvent
deriving DecidableEq, Repr

/-- `HashMap::insert`: replace the value of an existing key, else add. -/
def insertReplace {α : Type} [DecidableEq α] (k : α) (v : Nat) :
    List (α × Nat) → List (α × Nat)
  | [] => [(k, v)]
  | (k', v') :: t =>
    if k' = k then (k, v) :: t else (k', v') :: insertReplace k v t

/-- `HashMap::get` / lookup. -/
def assocLookup {α : Type} [DecidableEq α] (k : α) :
    List (α × Nat) → Option Nat
  | [] => none
  | (k', v) :: t => if k' = k then some v else assocLookup k t

/-- The empty orchestrator-direction state. -/
def MState.init : MState := ⟨[], [], 0, [], []⟩

/-- Spawn a task for `id` and register it in the active table
(`start_send`/`start_receive` + `active_*.insert`). -/
def startTask (id : String) (s : MState) : MState :=
  { s with
    active := insertReplace id s.nextTask s.active
    spawned := s.spawned ++ [(id, s.nextTask)]
    nextTask := s.nextTask + 1 }

/-- `TransferCommand::Send` (or `Receive`) handling: start immediately if
a slot is free, else enqueue and emit `Queued{position = len + 1}`. -/
def handleSend (maxConc : Nat) (id : String) (s : MState) : MState :=
  if s.active.length < maxConc then startTask id s
  else
    { s with
      queue := s.queue ++ [id]
      events := s.events ++ [.queued id (s.queue.length + 1)] }

/-- The `Queued` re-emission after a promotion:
`for (pos, q) in queue.iter().enumerate() { send Queued{pos + 1} }`. -/
def reEmitFrom (n : Nat) : List String → List MEvent
  | [] => []
  | id :: rest => .queued id (n + 1) :: reEmitFrom (n + 1) rest

/-- One promotion: start the queue head, then re-emit the positions of
every id still queued. -/
def promoteOnce (s : MState) : MState :=
  match s.queue with
  | [] => s
  | q :: rest =>
    let s' := startTask q { s with queue := rest }
    { s' with events := s'.events ++ reEmitFrom 0 rest }

/-- The promotion `while` loop, by fuel (the queue shrinks each step). -/
def promoteAux (maxConc : Nat) : Nat → MState → MState
  | 0, s => s
  | fuel + 1, s =>
    if s.active.length < maxConc ∧ s.queue ≠ [] then
      promoteAux maxConc fuel (promoteOnce s)
    else s

/-- `while active.len() < limit && !queue.is_empty() { promote }`. -/
def promote (maxConc : Nat) (s : MState) : MState :=
  promoteAux maxConc s.queue.length s

/-- The reap pass: drop active entries whose task handle is finished
(`active_*.retain(|_, (handle, _)| !handle.is_finished())`), the set of
finished task tokens being environmental. -/
def reap (fin : Nat → Bool) (s : MState) : MState :=
  { s with active := s.active.filter (fun kv => !fin kv.2) }

/-- `TransferCommand::Cancel` for this direction: drop a queued id and
emit `Cancelled`, else remove the active entry and fire its token.  Note:
no `Queued` re-emission for the ids left in the queue. -/
def handleCancel (id : String) (s : MState) : MState :=
  let wasQueued := s.queue.contains id
  let s' := { s with queue := s.queue.filter (fun q => q ≠ id) }
  if wasQueued then { s' with events := s'.events ++ [.cancelledQ id] }
  else { s' with active := s'.active.filter (fun kv => kv.1 ≠ id) }

/-- Position of the most recent `Queued` event for `id`. -/
def lastQueuedPos (evs : List MEvent) (id : String) : Option Nat :=
  (evs.filterMap fun e =>
    match e with
    | .queued j p => if j = id then some p else none
    | .cancelledQ _ => none).getLast?

/-- Orchestrator-direction states reachable without any `Cancel` command
(each enqueued id fresh for the queue, as the UI's uuid ids are). -/
inductive ReachNC (maxConc : Nat) : MState → Prop
  | init : ReachNC maxConc MState.init
  | send {s : MState} (id : String) :
      ReachNC maxConc s → id ∉ s.queue → ReachNC maxConc (handleSend maxConc id s)
  | reap {s : MState} (fin : Nat → Bool) :
      ReachNC maxConc s → ReachNC maxConc (reap fin s)
  | promote {s : MState} :
      ReachNC maxConc s → ReachNC maxConc (promote maxConc s)

/-! ## UI guard for empty selections (`App::start_send_action`,
src/app.rs lines 817-873) -/

/-- `start_send_action`: with an empty selection no `StartSend` action is
produced, so no `Send` command and no event; otherwise the selected paths
are sent.  (The uuid id, display name and record bookkeeping are elided.) -/
def startSendAction (selected : List FPath) : Option (List FPath) :=
  if selected.isEmpty then none else some selected

/-! ## Send task (`SendTask`, src/transfer/sender.rs)

`SendTask::run` is a phase chain followed by a `tokio::select!` event
loop.  The filesystem walk, the store, the endpoint and the provider
event stream are oracles in `SendEnv`; the loop consumes a list of
`SendStep`s (one per `select!` wakeup, in program order). -/

/-- `canonicalized_path_to_string` (src/transfer/sender.rs lines 399-430)
on an already-relative component list (the output of
`file_path.strip_prefix(root)`, which has no root or prefix component):
`Normal` components are checked, `.` is skipped, `..` is rejected. -/
def canonPathToString (comps : List String) : Except String String :=
  match canonParts comps with
  | .error e => .error e
  | .ok parts => .ok (joinWith "/" parts)
where
  canonParts : List String → Except String (List String)
    | [] => .ok []
    | c :: rest =>
      if c = "." then canonParts rest
      else if c = ".." then .error "parent directory not allowed"
      else if strContains c '/' || strContains c '\\' then
        .error "path separator in component"
      else if c = "" then .error "empty path component"
      else
        match canonParts rest with
        | .error e => .error e
        | .ok parts => .ok (c :: parts)

/-- Insertion into a by-name-sorted list
(`names_and_tags.sort_by(|(a,..),(b,..)| a.cmp(b))`). -/
def insertByName (x : String × Nat) : List (String × Nat) → List (String × Nat)
  | [] => [x]
  | y :: t => if x.1 ≤ y.1 then x :: y :: t else y :: insertByName x t

/-- Sort `(name, size)` pairs by name. -/
def sortByName : List (String × Nat) → List (String × Nat)
  | [] => []
  | x :: t => insertByName x (sortByName t)

/-- One file found by the walker: its path relative to the input's parent
(as components) and its size. -/
structure WalkFile where
  rel : List String
  size : Nat
deriving DecidableEq, Repr

/-- Environment of a send task. -/
structure SendEnv where
  /-- Per input path: the regular files the walk yields, or a walk /
  canonicalize error. -/
  walk : FPath → Option (List WalkFile)
  /-- Whether each file's parallel import succeeds, keyed by its name. -/
  importOk : String → Bool
  /-- `collection.store(&store)` succeeds. -/
  storeOk : Bool
  /-- Endpoint creation succeeds. -/
  bindOk : Bool
  /-- The stringified ticket. -/
  ticketStr : String
  /-- `start.elapsed()` at completion, opaque ticks. -/
  durTicks : Nat

/-- Walk every input path and name every file, in order
(`SendTask::import_files`, first loop). -/
def walkAll (env : SendEnv) : List FPath → Except String (List (String × Nat))
  | [] => .ok []
  | p :: rest =>
    match env.walk p with
    | none => .error "walk error"
    | some files =>
      match nameFiles files with
      | .error e => .error e
      | .ok named =>
        match walkAll env rest with
        | .error e => .error e
        | .ok more => .ok (named ++ more)
where
  nameFiles : List WalkFile → Except String (List (String × Nat))
    | [] => .ok []
    | f :: fs =>
      match canonPathToString f.rel with
      | .error e => .error e
      | .ok name =>
        match nameFiles fs with
        | .error e => .error e
        | .ok more => .ok ((name, f.size) :: more)

/-- The display name: the sole input's file name when there is exactly one
input path, else `"N items"`. -/
def sendDisplayName (paths : List FPath) : String :=
  match paths with
  | [p] => p.getLastD "files"
  | _ => toString paths.length ++ " items"

/-- `SendTask::import_files`: walk, name, import in parallel (any failure
aborts), sort by name, sum sizes, store the collection.  Returns the
sorted `(name, size)` list, the total size and the display name. -/
def importFiles (env : SendEnv) (paths : List FPath) :
    Except String (List (String × Nat) × Nat × String) :=
  match walkAll env paths with
  | .error e => .error e
  | .ok allFiles =>
    if allFiles.all (fun f => env.importOk f.1) then
      if env.storeOk then
        let sorted := sortByName allFiles
        let total := (sorted.map (fun f => f.2)).sum
        .ok (sorted, total, sendDisplayName paths)
      else .error "store error"
    else .error "import error"

/-- One `tokio::select!` wakeup of the sender's event loop. -/
inductive SendStep
  /-- The cancellation token fired. -/
  | cancelFire
  /-- `ProviderMessage::ClientConnectedNotify`. -/
  | clientConnected
  /-- `ProviderMessage::GetRequestReceivedNotify` (spawns a watcher whose
  output arrives as `progressUpdate` steps). -/
  | getRequest
  /-- `ProviderMessage::ConnectionClosed`. -/
  | connectionClosed
  /-- Any other provider message. -/
  | otherMsg
  /-- The provider event channel closed (`None`). -/
  | channelClosed
  /-- A `(blob_index, offset, is_complete)` update; `time` is the
  `Instant::now()` of the sample, `delivered` whether the best-effort
  `try_send` of the `Progress` event found room. -/
  | progressUpdate (blobIndex offset time : Nat) (isComplete delivered : Bool)
deriving DecidableEq, Repr

/-- `blob_progress.values().sum()`. -/
def sumValues (m : List (Nat × Nat)) : Nat := (m.map (fun kv => kv.2)).sum

/-- `HashSet::insert`. -/
def insertSet (x : Nat) (s : List Nat) : List Nat :=
  if x ∈ s then s else s ++ [x]

/-- Loop state of the sender's event loop. -/
structure SLState where
  hadConnection : Bool
  connectionReported : Bool
  blobProgress : List (Nat × Nat)
  completedBlobs : List Nat
  tracker : SpeedTracker
deriving DecidableEq, Repr

/-- The state transition of a `(blob_index, offset, is_complete)` update:
record the offset, mark completion, feed the tracker the new total. -/
def slUpdate (st : SLState) (i off t : Nat) (c : Bool) : SLState :=
  { st with
    blobProgress := insertReplace i off st.blobProgress
    completedBlobs := if c then insertSet i st.completedBlobs else st.completedBlobs
    tracker := st.tracker.addSample t (sumValues (insertReplace i off st.blobProgress)) }

/-- The sender's event loop (src/transfer/sender.rs lines 167-258).
Returns the events emitted inside the loop and `some cancelled` if a
`break` was reached, `none` if the step list ran out (the real loop would
still be blocked). -/
def sendLoop (id : String) (expected : Nat) :
    List SendStep → SLState → List Event × Option Bool
  | [], _ => ([], none)
  | step :: rest, st =>
    match step with
    | .cancelFire => ([], some true)
    | .clientConnected =>
      if !st.connectionReported then
        let out := sendLoop id expected rest
          { st with hadConnection := true, connectionReported := true }
        (Event.connected id false :: out.1, out.2)
      else sendLoop id expected rest { st with hadConnection := true }
    | .getRequest => sendLoop id expected rest st
    | .otherMsg => sendLoop id expected rest st
    | .connectionClosed =>
      if st.completedBlobs.length ≥ expected || st.hadConnection then
        ([], some false)
      else sendLoop id expected rest st
    | .channelClosed => ([], some false)
    | .progressUpdate i off t c delivered =>
      if c && decide ((slUpdate st i off t c).completedBlobs.length ≥ expected) then
        ([], some false)
      else if delivered then
        (Event.progress id (sumValues (slUpdate st i off t c).blobProgress)
            (slUpdate st i off t c).tracker.speedBps ::
          (sendLoop id expected rest (slUpdate st i off t c)).1,
         (sendLoop id expected rest (slUpdate st i off t c)).2)
      else sendLoop id expected rest (slUpdate st i off t c)

/-- How `SendTask::run` returned. -/
inductive SendExit
  /-- `import_files` failed (`?`): the error is only logged by the
  orchestrator's spawn wrapper. -/
  | errImport
  /-- Endpoint creation failed (`?`). -/
  | errBind
  /-- The step list ended with the loop still blocked. -/
  | outOfSteps
  /-- The loop broke; `true` means the cancel branch was taken. -/
  | finished (cancelled : Bool)
deriving DecidableEq, Repr

/-- `SendTask::run` (src/transfer/sender.rs lines 63-289) over its
environment and the list of loop wakeups. -/
def sendRun (id : String) (env : SendEnv) (paths : List FPath)
    (steps : List SendStep) : List Event × SendExit :=
  let t0 := [Event.preparing id "Importing files..."]
  match importFiles env paths with
  | .error _ => (t0, .errImport)
  | .ok (files, total, name) =>
    let t1 := t0 ++ [Event.preparing id "Creating endpoint..."]
    if !env.bindOk then (t1, .errBind)
    else
      let t2 := t1 ++
        [Event.preparing id "Joining relay network...",
         Event.ticketReady id env.ticketStr,
         Event.started id name total,
         Event.connecting id]
      let expected := files.length + 1
      let st0 : SLState := ⟨false, false, [], [], SpeedTracker.defaultWindow⟩
      match sendLoop id expected steps st0 with
      | (ltr, some cancelled) =>
        if cancelled then (t2 ++ ltr ++ [Event.cancelled id], .finished true)
        else (t2 ++ ltr ++ [Event.completed id total env.durTicks], .finished false)
      | (ltr, none) => (t2 ++ ltr, .outOfSteps)

/-! ## Receive task (`ReceiveTask`, src/transfer/receiver.rs)

`ReceiveTask::run` is a linear phase chain; the endpoint, the connection,
the remote sizes, `fs2::available_space`, the store, the filesystem and
the one-shot resolution inbox are oracles in `RecvEnv`.  Blocking
`progress_tx.send`s are delivered; the in-loop `try_send`s carry a
`delivered` flag. -/

/-- Outcome of `endpoint.connect` under the 30-second timeout. -/
inductive ConnectOutcome
  /-- `tokio::time::timeout` elapsed. -/
  | timeout
  /-- The connect future itself failed (refused / unreachable). -/
  | refused
  /-- Connected; `known` is whether `conn_type` was available, `relay`
  whether it classified the path as a relay. -/
  | ok (known relay : Bool)
deriving DecidableEq, Repr

/-- One item of the per-entry export stream, with the cancellation-token
observation made when it arrives (`cancelObserved`) mirroring the
`if self.cancel_token.is_cancelled()` check at the top of the item loop. -/
inductive ExpItem
  | size (n : Nat)
  /-- `CopyProgress(offset)`; `time` is the sample instant, `delivered`
  whether the best-effort `try_send` found room. -/
  | copyProgress (offset time : Nat) (delivered : Bool)
  | done
  | error
deriving DecidableEq, Repr

/-- Per-collection-entry slice of the environment. -/
structure EntryEnv where
  /-- The token was observed cancelled at the head of the entry loop. -/
  cancelBefore : Bool
  /-- `create_dir_all` of the target's parent succeeded. -/
  mkdirOk : Bool
  /-- The export stream's items, each with its token observation. -/
  items : List (Bool × ExpItem)
deriving DecidableEq, Repr

/-- Entry environment when the oracle list runs short: no cancellation,
directories fine, empty stream. -/
def defaultEntryEnv : EntryEnv := ⟨false, true, []⟩

/-- Environment of a receive task. -/
structure RecvEnv where
  /-- Endpoint creation succeeds. -/
  endpointOk : Bool
  connect : ConnectOutcome
  /-- `get_hash_seq_and_sizes` result: the sizes (metadata first). -/
  sizes : Option (List Nat)
  /-- `fs2::available_space(&output_dir)` result. -/
  avail : Option Nat
  /-- `store.remote().local(hash_and_format)` succeeded. -/
  localQueryOk : Bool
  /-- `local.is_complete()`. -/
  localComplete : Bool
  /-- The metadata `execute_get` stream reached `Done` (or ended) rather
  than `Error`; consulted only when the content is not complete locally. -/
  metaGetOk : Bool
  /-- `Collection::load` succeeds. -/
  loadOk : Bool
  /-- The loaded collection's entry names, in order (hashes elided). -/
  coll : List String
  /-- Filesystem existence snapshot. -/
  fsE : FPath → Bool
  /-- The resolution inbox: `none` means the channel closed unreplied. -/
  resolution : Option CRes
  /-- Per-entry export environments, by entry position. -/
  entries : List EntryEnv
  /-- `start.elapsed()` at completion, opaque ticks. -/
  durTicks : Nat

/-- `name.rsplit('/').next().unwrap_or(name)`: the basename. -/
def basenameOf (name : String) : String :=
  (splitOnChar '/' name).getLastD name

/-- `ReceiveTask::check_conflicts`: every entry whose sanitized target
exists, with its target path; the first sanitization error aborts. -/
def checkConflicts (outDir : FPath) (fsE : FPath → Bool) :
    List String → Except String (List (String × FPath))
  | [] => .ok []
  | name :: rest =>
    match getExportPath outDir name with
    | .error e => .error e
    | .ok target =>
      match checkConflicts outDir fsE rest with
      | .error e => .error e
      | .ok more =>
        if fsE target then .ok ((name, target) :: more) else .ok more

/-- The `Started` display name (src/transfer/receiver.rs lines 293-314):
the single entry's name, else the shared top-level prefix of all names,
else `"N files"`.  (`starts_with` is a string prefix test in the source.) -/
def startedName (coll : List String) (totalFiles : Nat) : String :=
  if totalFiles = 1 then coll.headD "file"
  else
    let firstName := coll.headD ""
    let folder := (splitOnChar '/' firstName).headD ""
    if coll.all (fun n => strStartsWith n folder) then folder
    else toString totalFiles ++ " files"

/-- Result of the per-entry stream loop. -/
inductive StreamOut
  /-- The token was observed cancelled: `return Ok(false)`. -/
  | cancelled
  /-- `ExportProgressItem::Error`: bail. -/
  | errored
  /-- The loop ended (on `Done`, or the stream ran dry): new cumulative
  base and tracker, and whether `Done` was reached. -/
  | ended (newCum : Nat) (trk : SpeedTracker) (fileComplete : Bool)

/-- The export stream loop for one entry (src/transfer/receiver.rs lines
425-455): `Size` records the blob size, `CopyProgress` feeds the tracker
and best-effort-sends `Progress`, `Done` advances the cumulative base and
breaks, `Error` bails. -/
def runStream (id : String) (cum : Nat) :
    List (Bool × ExpItem) → SpeedTracker → Nat → List Event × StreamOut
  | [], trk, _ => ([], .ended cum trk false)
  | (cancelObs, item) :: rest, trk, curSize =>
    if cancelObs then ([], .cancelled)
    else
      match item with
      | .size n => runStream id cum rest trk n
      | .copyProgress off t delivered =>
        let bytes := cum + off
        let trk' := trk.addSample t bytes
        let out := runStream id cum rest trk' curSize
        if delivered then
          (Event.progress id bytes trk'.speedBps :: out.1, out.2)
        else out
      | .done => ([], .ended (cum + curSize) trk true)
      | .error => ([], .errored)

/-- Result of `export_collection`: `Ok(completed)` or a bailed error. -/
inductive ExpRes
  | ok (completed : Bool)
  | err
deriving DecidableEq, Repr

/-- `ReceiveTask::export_collection` (src/transfer/receiver.rs lines
373-463): for each entry in order, sanitize, make the parent directory,
resolve the target against the conflict resolution, run the export
stream.  (`exported_files` bookkeeping has no event effect and is
elided, as is the best-effort removal under `Overwrite`.) -/
def exportEntries (id : String) (outDir : FPath) (fsE : FPath → Bool)
    (res : CRes) : List String → List EntryEnv → Nat → SpeedTracker →
    List Event × ExpRes
  | [], _, _, _ => ([], .ok true)
  | name :: names, ees, cum, trk =>
    let ee := ees.headD defaultEntryEnv
    if ee.cancelBefore then ([], .ok false)
    else
      match getExportPath outDir name with
      | .error _ => ([], .err)
      | .ok base =>
        if !ee.mkdirOk then ([], .err)
        else
          match resolveTarget fsE res base with
          | .abort => ([], .ok false)
          | .skipEntry => exportEntries id outDir fsE res names ees.tail cum trk
          | .proceed _ =>
            match runStream id cum ee.items trk 0 with
            | (str, .cancelled) => (str, .ok false)
            | (str, .errored) => (str, .err)
            | (str, .ended cum' trk' _) =>
              let out := exportEntries id outDir fsE res names ees.tail cum' trk'
              (str ++ out.1, out.2)

/-- How `ReceiveTask::run` returned.  The `err*` constructors are `?` /
`bail!` returns whose error the orchestrator's spawn wrapper only logs. -/
inductive RecvExit
  | errEndpoint
  | errConnectTimeout
  | errConnectRefused
  | errSizes
  | errAvail
  | errLocalQuery
  /-- The disk-space shortfall: `Failed` was emitted, then `bail!`. -/
  | failedDisk
  | errMetaGet
  | errLoad
  | errConflictPath
  /-- The resolution inbox closed unreplied: silent `return Ok(())`. -/
  | silentInbox
  /-- The user resolved with `Cancel`: `Cancelled` emitted. -/
  | userCancel
  | errExport
  /-- `export_collection` returned `Ok(false)`: cleanup, `Cancelled`. -/
  | exportCancelled
  /-- Every entry exported: `Completed`. -/
  | completed
deriving DecidableEq, Repr

/-- `MIN_FREE_SPACE`: 1 GiB. -/
def MIN_FREE_SPACE : Nat := 1024 * 1024 * 1024

/-- Events the receiver has sent when its connect attempt resolves:
`Preparing{"Creating endpoint..."}` then `Connecting`. -/
def recvPre (id : String) : List Event :=
  [Event.preparing id "Creating endpoint...", Event.connecting id]

/-- `is_relay`: the classified transport when known, else
conservatively `true` (src/transfer/receiver.rs lines 126-133). -/
def relayFlag (known relay : Bool) : Bool := if known then relay else true

/-- ... plus `Connected{is_relay}` after a successful connect. -/
def recvConn (id : String) (isRelay : Bool) : List Event :=
  recvPre id ++ [Event.connected id isRelay]

/-- The receiver's `FileList` payload: basenames zipped with the payload
sizes (`collection.iter().zip(sizes.iter().skip(1))`). -/
def fileListOf (coll : List String) (sizes : List Nat) : List (String × Nat) :=
  (coll.zip (sizes.drop 1)).map (fun ns => (basenameOf ns.1, ns.2))

/-- Events sent once the collection is loaded: the connection events plus
`FileList` (sent only when non-empty). -/
def recvMeta (id : String) (isRelay : Bool) (coll : List String)
    (sizes : List Nat) : List Event :=
  recvConn id isRelay ++
    (if (fileListOf coll sizes).isEmpty then []
     else [Event.fileList id (fileListOf coll sizes)])

/-- The tail of `ReceiveTask::run` from the resolved `ConflictResolution`
on (src/transfer/receiver.rs lines 280-356): `Cancel` short-circuits,
otherwise `Started` is emitted, the collection is exported, and the
outcome decides `Completed` versus cleanup + `Cancelled`.  `t` is the
trace already emitted. -/
def recvAfterRes (id : String) (outDir : FPath) (env : RecvEnv)
    (payloadSize totalFiles : Nat) (res : CRes) (t : List Event) :
    List Event × RecvExit :=
  if res = .cancel then (t ++ [Event.cancelled id], .userCancel)
  else
    match exportEntries id outDir env.fsE res env.coll env.entries 0
        SpeedTracker.defaultWindow with
    | (etr, .err) =>
      (t ++ [Event.started id (startedName env.coll totalFiles) payloadSize] ++
        etr, .errExport)
    | (etr, .ok true) =>
      (t ++ [Event.started id (startedName env.coll totalFiles) payloadSize] ++
        etr ++ [Event.completed id payloadSize env.durTicks], .completed)
    | (etr, .ok false) =>
      (t ++ [Event.started id (startedName env.coll totalFiles) payloadSize] ++
        etr ++ [Event.cancelled id], .exportCancelled)

/-- `ReceiveTask::run` (src/transfer/receiver.rs lines 81-357). -/
def receiveRun (id : String) (outDir : FPath) (env : RecvEnv) :
    List Event × RecvExit :=
  if !env.endpointOk then
    ([Event.preparing id "Creating endpoint..."], .errEndpoint)
  else
    match env.connect with
    | .timeout => (recvPre id, .errConnectTimeout)
    | .refused => (recvPre id, .errConnectRefused)
    | .ok known relay =>
      match env.sizes with
      | none => (recvConn id (relayFlag known relay), .errSizes)
      | some sizes =>
        match env.avail with
        | none => (recvConn id (relayFlag known relay), .errAvail)
        | some freeSpace =>
          if freeSpace < (sizes.drop 1).sum + MIN_FREE_SPACE then
            (recvConn id (relayFlag known relay) ++
              [Event.failed id "insufficient disk space"], .failedDisk)
          else if !env.localQueryOk then
            (recvConn id (relayFlag known relay), .errLocalQuery)
          else if !env.localComplete && !env.metaGetOk then
            (recvConn id (relayFlag known relay), .errMetaGet)
          else if !env.loadOk then (recvConn id (relayFlag known relay), .errLoad)
          else
            match checkConflicts outDir env.fsE env.coll with
            | .error _ =>
              (recvMeta id (relayFlag known relay) env.coll sizes, .errConflictPath)
            | .ok conflicts =>
              if conflicts.isEmpty then
                recvAfterRes id outDir env (sizes.drop 1).sum
                  (sizes.length - 1) .rename (recvMeta id (relayFlag known relay) env.coll sizes)
              else
                match env.resolution with
                | none =>
                  (recvMeta id (relayFlag known relay) env.coll sizes ++
                    [Event.fileConflicts id conflicts (sizes.drop 1).sum],
                   .silentInbox)
                | some res =>
                  recvAfterRes id outDir env (sizes.drop 1).sum
                    (sizes.length - 1) res
                    (recvMeta id (relayFlag known relay) env.coll sizes ++
                      [Event.fileConflicts id conflicts (sizes.drop 1).sum])

/-! ## Trace-shape lemmas

Every task trace decomposes as a terminal-free prefix followed by the
(zero or one) terminal events of its exit path. -/

/-- Number of terminal events in a trace. -/
def countTerm (l : List Event) : Nat := l.countP (fun e => e.isTerminal)

theorem noTerm_append {a b : List Event} :
    noTerm (a ++ b) = (noTerm a && noTerm b) := by
  simp [noTerm, List.all_append]

theorem noTerm_dropLast {l : List Event} (h : noTerm l = true) :
    noTerm l.dropLast = true := by
  simp only [noTerm, List.all_eq_true] at h ⊢
  intro a ha
  exact h a ((List.dropLast_sublist (l := l)).subset ha)

theorem countTerm_noTerm {l : List Event} (h : noTerm l = true) :
    countTerm l = 0 := by
  simp only [noTerm, List.all_eq_true] at h
  rw [countTerm, List.countP_eq_zero]
  intro a ha
  simpa using h a ha

/-- The receiver's terminal exits. -/
def RecvExit.terminalEmitted : RecvExit → Bool
  | .failedDisk => true
  | .userCancel => true
  | .exportCancelled => true
  | .completed => true
  | _ => false

/-- The terminal events emitted for each receiver exit path. -/
def recvExitEvents (id : String) (payload dur : Nat) : RecvExit → List Event
  | .failedDisk => [.failed id "insufficient disk space"]
  | .userCancel => [.cancelled id]
  | .exportCancelled => [.cancelled id]
  | .completed => [.completed id payload dur]
  | _ => []

theorem runStream_noTerm (id : String) (cum : Nat)
    (items : List (Bool × ExpItem)) (trk : SpeedTracker) (curSize : Nat) :
    noTerm (runStream id cum items trk curSize).1 = true := by
  induction items generalizing trk curSize with
  | nil => simp [runStream, noTerm]
  | cons it rest ih =>
    obtain ⟨cObs, item⟩ := it
    cases cObs
    · cases item with
      | size n => simpa [runStream] using ih _ _
      | copyProgress off t delivered =>
        cases delivered
        · simpa [runStream] using ih _ _
        · simp only [runStream, noTerm, List.all_cons]
          have := ih (trk.addSample t (cum + off)) curSize
          simpa [noTerm, Event.isTerminal] using this
      | done => simp [runStream, noTerm]
      | error => simp [runStream, noTerm]
    · simp [runStream, noTerm]

theorem exportEntries_noTerm (id : String) (outDir : FPath)
    (fsE : FPath → Bool) (res : CRes) (names : List String)
    (ees : List EntryEnv) (cum : Nat) (trk : SpeedTracker) :
    noTerm (exportEntries id outDir fsE res names ees cum trk).1 = true := by
  induction names generalizing ees cum trk with
  | nil => simp [exportEntries, noTerm]
  | cons name rest ih =>
    simp only [exportEntries]
    split
    · simp [noTerm]
    · split
      · simp [noTerm]
      · split
        · simp [noTerm]
        · split
          · simp [noTerm]
          · exact ih _ _ _
          · have h1 := runStream_noTerm id cum (ees.headD defaultEntryEnv).items trk 0
            rcases hR : runStream id cum (ees.headD defaultEntryEnv).items trk 0
              with ⟨str, so⟩
            rw [hR] at h1
            cases so with
            | cancelled => simpa [hR] using h1
            | errored => simpa [hR] using h1
            | ended cum' trk' fc =>
              simp only [hR]
              rw [noTerm_append]
              simp only [h1, Bool.true_and]
              exact ih ees.tail cum' trk'

theorem noTerm_recvPre (id : String) : noTerm (recvPre id) = true := rfl

theorem noTerm_recvConn (id : String) (r : Bool) :
    noTerm (recvConn id r) = true := rfl

theorem noTerm_recvMeta (id : String) (r : Bool) (coll : List String)
    (sizes : List Nat) : noTerm (recvMeta id r coll sizes) = true := by
  simp only [recvMeta, noTerm_append, noTerm_recvConn, Bool.true_and]
  split <;> rfl

/-- The payload size a receive environment determines
(`sizes.iter().skip(1).sum()`). -/
def payloadOf (env : RecvEnv) : Nat := ((env.sizes.getD []).drop 1).sum

/-- Shape of the post-resolution tail: terminal-free prefix plus the exit
events. -/
theorem recvAfterRes_shape (id : String) (outDir : FPath) (env : RecvEnv)
    (payloadSize totalFiles : Nat) (res : CRes) (t : List Event)
    (ht : noTerm t = true) :
    ∃ A, noTerm A = true ∧
      (recvAfterRes id outDir env payloadSize totalFiles res t).1 =
        A ++ recvExitEvents id payloadSize env.durTicks
          (recvAfterRes id outDir env payloadSize totalFiles res t).2 := by
  rw [recvAfterRes]
  split
  · exact ⟨t, ht, by simp [recvExitEvents]⟩
  · have hE := exportEntries_noTerm id outDir env.fsE res env.coll env.entries 0
      SpeedTracker.defaultWindow
    rcases hX : exportEntries id outDir env.fsE res env.coll env.entries 0
      SpeedTracker.defaultWindow with ⟨etr, er⟩
    rw [hX] at hE
    simp only at hE
    have hstart : noTerm
        [Event.started id (startedName env.coll totalFiles) payloadSize] = true := rfl
    have hpre : noTerm (t ++ [Event.started id (startedName env.coll totalFiles)
        payloadSize] ++ etr) = true := by
      rw [noTerm_append, noTerm_append, ht, hstart, hE]
      rfl
    cases er with
    | err => exact ⟨_, hpre, by simp [hX, recvExitEvents]⟩
    | ok completed =>
      cases completed
      · exact ⟨_, hpre, by simp [hX, recvExitEvents]⟩
      · exact ⟨_, hpre, by simp [hX, recvExitEvents]⟩

/-- Master shape lemma for the receiver: its trace is a terminal-free
prefix followed by exactly the terminal events of its exit path. -/
theorem receiveRun_shape (id : String) (outDir : FPath) (env : RecvEnv) :
    ∃ A, noTerm A = true ∧
      (receiveRun id outDir env).1 =
        A ++ recvExitEvents id (payloadOf env) env.durTicks
          (receiveRun id outDir env).2 := by
  rw [receiveRun]
  split
  · exact ⟨[Event.preparing id "Creating endpoint..."], rfl,
      by simp [recvExitEvents]⟩
  · split
    · exact ⟨recvPre id, noTerm_recvPre id, by simp [recvExitEvents]⟩
    · exact ⟨recvPre id, noTerm_recvPre id, by simp [recvExitEvents]⟩
    · rename_i known relay hconn
      split
      · exact ⟨recvConn id (relayFlag known relay), noTerm_recvConn id _, by simp [recvExitEvents]⟩
      · rename_i sizes hsz
        split
        · exact ⟨recvConn id (relayFlag known relay), noTerm_recvConn id _, by simp [recvExitEvents]⟩
        · rename_i free hav
          split
          · refine ⟨recvConn id (relayFlag known relay),
              noTerm_recvConn id _, ?_⟩
            simp [recvExitEvents, payloadOf, hsz]
          · split
            · exact ⟨recvConn id (relayFlag known relay), noTerm_recvConn id _, by simp [recvExitEvents]⟩
            · split
              · exact ⟨recvConn id (relayFlag known relay), noTerm_recvConn id _, by simp [recvExitEvents]⟩
              · split
                · exact ⟨recvConn id (relayFlag known relay), noTerm_recvConn id _,
                    by simp [recvExitEvents]⟩
                · split
                  · exact ⟨recvMeta id (relayFlag known relay) env.coll sizes,
                      noTerm_recvMeta id _ _ _, by simp [recvExitEvents]⟩
                  · rename_i conflicts hcf
                    split
                    · have := recvAfterRes_shape id outDir env (sizes.drop 1).sum
                        (sizes.length - 1) .rename
                        (recvMeta id (relayFlag known relay) env.coll sizes)
                        (noTerm_recvMeta id _ _ _)
                      simpa [payloadOf, hsz] using this
                    · split
                      · refine ⟨recvMeta id (relayFlag known relay)
                          env.coll sizes ++
                          [Event.fileConflicts id conflicts (sizes.drop 1).sum],
                          ?_, by simp [recvExitEvents]⟩
                        rw [noTerm_append, noTerm_recvMeta]
                        rfl
                      · rename_i res hres
                        have := recvAfterRes_shape id outDir env (sizes.drop 1).sum
                          (sizes.length - 1) res
                          (recvMeta id (relayFlag known relay) env.coll sizes ++
                            [Event.fileConflicts id conflicts (sizes.drop 1).sum])
                          (by rw [noTerm_append, noTerm_recvMeta]; rfl)
                        simpa [payloadOf, hsz] using this

/-- The sender's terminal exit: a loop `break`. -/
def SendExit.terminalEmitted : SendExit → Bool
  | .finished _ => true
  | _ => false

/-- The terminal events emitted for each sender exit path. -/
def sendExitEvents (id : String) (total dur : Nat) : SendExit → List Event
  | .finished true => [.cancelled id]
  | .finished false => [.completed id total dur]
  | _ => []

theorem sendLoop_noTerm (id : String) (expected : Nat)
    (steps : List SendStep) (st : SLState) :
    noTerm (sendLoop id expected steps st).1 = true := by
  induction steps generalizing st with
  | nil => simp [sendLoop, noTerm]
  | cons step rest ih =>
    cases step with
    | cancelFire => simp [sendLoop, noTerm]
    | clientConnected =>
      rw [sendLoop]
      split
      · simp only [noTerm, List.all_cons]
        have := ih { st with hadConnection := true, connectionReported := true }
        simpa [noTerm, Event.isTerminal] using this
      · exact ih _
    | getRequest => simpa [sendLoop] using ih st
    | otherMsg => simpa [sendLoop] using ih st
    | connectionClosed =>
      rw [sendLoop]
      split
      · simp [noTerm]
      · exact ih st
    | channelClosed => simp [sendLoop, noTerm]
    | progressUpdate i off t c delivered =>
      rw [sendLoop]
      split
      · simp [noTerm]
      · split
        · simp only [noTerm, List.all_cons]
          have := ih (slUpdate st i off t c)
          simpa [noTerm, Event.isTerminal] using this
        · exact ih _

/-- The total size a send environment and path list determine. -/
def sendTotalOf (env : SendEnv) (paths : List FPath) : Nat :=
  match importFiles env paths with
  | .ok (_, total, _) => total
  | .error _ => 0

/-- Master shape lemma for the sender. -/
theorem sendRun_shape (id : String) (env : SendEnv) (paths : List FPath)
    (steps : List SendStep) :
    ∃ A, noTerm A = true ∧
      (sendRun id env paths steps).1 =
        A ++ sendExitEvents id (sendTotalOf env paths) env.durTicks
          (sendRun id env paths steps).2 := by
  rw [sendRun, sendTotalOf]
  rcases hI : importFiles env paths with e | ⟨files, total, name⟩
  · exact ⟨[Event.preparing id "Importing files..."], rfl,
      by simp [sendExitEvents]⟩
  · simp only []
    split
    · exact ⟨[Event.preparing id "Importing files...",
        Event.preparing id "Creating endpoint..."], rfl, by simp [sendExitEvents]⟩
    · have hL := sendLoop_noTerm id (files.length + 1) steps
        ⟨false, false, [], [], SpeedTracker.defaultWindow⟩
      rcases hS : sendLoop id (files.length + 1) steps
        ⟨false, false, [], [], SpeedTracker.defaultWindow⟩ with ⟨ltr, br⟩
      rw [hS] at hL
      simp only at hL
      have hpre : noTerm ([Event.preparing id "Importing files...",
          Event.preparing id "Creating endpoint...",
          Event.preparing id "Joining relay network...",
          Event.ticketReady id env.ticketStr,
          Event.started id name total,
          Event.connecting id] ++ ltr) = true := by
        rw [noTerm_append, hL]
        rfl
      cases br with
      | none => exact ⟨_, hpre, by simp [hS, sendExitEvents]⟩
      | some cancelled =>
        cases cancelled
        · exact ⟨_, hpre, by simp [hS, sendExitEvents]⟩
        · exact ⟨_, hpre, by simp [hS, sendExitEvents]⟩

/-! ## Claim C6: SpeedTracker -/

/-- A tracker state reachable by two `add_sample` calls spanning exactly
100 ms: `(t=0, b=0)` then `(t=100ms, b=1000)`. -/
def c6Tracker : SpeedTracker :=
  (SpeedTracker.defaultWindow.addSample 0 0).addSample 100000000 1000

/-- Claim C6 is false at a span of exactly 100 ms: the code returns 0
(`duration > 0.1` fails), while the claim's "under 100 ms" formula
demands `1000 / 0.1 s = 10000`. -/
theorem c6_counterexample :
    c6Tracker.speedBps = 0 ∧ speedSpecClaim c6Tracker = 10000 ∧
      c6Tracker.speedBps ≠ speedSpecClaim c6Tracker := by decide

/-- Claim C6 as amended: `speed_bps()` returns 0 when fewer than two
samples remain or when the span between oldest and newest samples is at
most 100 ms; otherwise it returns the saturating byte delta divided by
the span in seconds, truncated to an integer. -/
theorem c6_amended (tr : SpeedTracker) :
    tr.speedBps = speedSpecAmended tr := by
  rw [SpeedTracker.speedBps, speedSpecAmended]
  split
  · rfl
  · rcases tr.samples.head? with _ | ⟨t1, b1⟩ <;>
      rcases tr.samples.getLast? with _ | ⟨t2, b2⟩ <;> simp only []
    by_cases h : t2 - t1 > 100000000
    · rw [if_pos h, if_neg (by omega)]
    · rw [if_neg h, if_pos (by omega)]

/-! ## Claim C3: receiver path sanitization -/

theorem pushChecked_ok {parts : List String} {acc p : FPath}
    (h : pushChecked parts acc = .ok p) :
    parts.all goodComponent = true ∧ p = acc ++ parts := by
  induction parts generalizing acc with
  | nil =>
    rw [pushChecked] at h
    cases h
    exact ⟨rfl, by simp⟩
  | cons part rest ih =>
    rw [pushChecked] at h
    split at h
    · cases h
    · split at h
      · cases h
      · split at h
        · cases h
        · rename_i h1 h2 h3
          obtain ⟨hall, hp⟩ := ih h
          refine ⟨?_, by rw [hp]; simp⟩
          simp only [List.all_cons, hall, Bool.and_true]
          simp only [Bool.or_eq_true, decide_eq_true_eq, not_or,
            Bool.not_eq_true] at h2 h3
          simp [goodComponent, bne_iff_ne, h1, h2.1, h2.2, h3.1, h3.2]

/-- `splitOnCharAux` never returns an empty list. -/
theorem splitOnCharAux_ne_nil (c : Char) (l acc : List Char) :
    splitOnCharAux c l acc ≠ [] := by
  induction l generalizing acc with
  | nil => simp [splitOnCharAux]
  | cons x xs ih =>
    rw [splitOnCharAux]
    split <;> simp_all

theorem dropLast_append_ne_nil {α : Type} (l1 : List α) {l2 : List α}
    (h : l2 ≠ []) : (l1 ++ l2).dropLast = l1 ++ l2.dropLast := by
  induction l1 with
  | nil => rfl
  | cons x t ih =>
    have hne : t ++ l2 ≠ [] := by simp [h]
    rw [List.cons_append, List.dropLast_cons_of_ne_nil hne, ih]
    rfl

/-- `find_available_path` stays in the base path's directory: it returns
either `base` or a sibling of `base`. -/
theorem findAvailablePath_prefix (fsE : FPath → Bool) (d parts : FPath)
    (hne : parts ≠ []) : d <+: findAvailablePath fsE (d ++ parts) := by
  rw [findAvailablePath]
  split
  · exact ⟨parts, rfl⟩
  · split
    · simp only [renameCandidate]
      refine List.IsPrefix.trans ?_ (List.prefix_append _ _)
      rw [dropLast_append_ne_nil d hne]
      exact List.prefix_append _ _
    · exact ⟨parts, rfl⟩

/-- Claim C3: `get_export_path(name)` succeeds only if every `/`-separated
component of `name` is non-empty, differs from `"."` and `".."` and
contains no `'/'` or `'\'`; every path it returns extends `output_dir`;
and consequently every target `export_collection` proceeds to write
(under any resolution, renamed or not) extends `output_dir` as well. -/
theorem c3_sanitization :
    (∀ (outputDir : FPath) (name : String) (p : FPath),
      getExportPath outputDir name = .ok p →
        (splitOnChar '/' name).all goodComponent = true ∧ outputDir <+: p) ∧
    (∀ (fsE : FPath → Bool) (res : CRes) (outputDir : FPath) (name : String)
        (p t : FPath),
      getExportPath outputDir name = .ok p →
        resolveTarget fsE res p = .proceed t → outputDir <+: t) := by
  have key : ∀ (outputDir : FPath) (name : String) (p : FPath),
      getExportPath outputDir name = .ok p →
        (splitOnChar '/' name).all goodComponent = true ∧
          p = outputDir ++ splitOnChar '/' name := by
    intro outputDir name p h
    rw [getExportPath] at h
    split at h
    · cases h
    · rename_i path hpc
      split at h
      · cases h
        exact pushChecked_ok hpc
      · cases h
  constructor
  · intro outputDir name p h
    obtain ⟨hall, hp⟩ := key outputDir name p h
    exact ⟨hall, hp ▸ ⟨_, rfl⟩⟩
  · intro fsE res outputDir name p t h hrt
    obtain ⟨_, hp⟩ := key outputDir name p h
    subst hp
    rw [resolveTarget.eq_def] at hrt
    split at hrt
    · cases res with
      | rename =>
        simp only at hrt
        cases hrt
        exact findAvailablePath_prefix fsE outputDir _
          (splitOnCharAux_ne_nil '/' name.data [])
      | overwrite => cases hrt; exact ⟨_, rfl⟩
      | skip => cases hrt
      | cancel => cases hrt
    · cases hrt
      exact ⟨_, rfl⟩

/-- Witness for C3 at `output_dir = ["out"]`, `name = "a/b.txt"`. -/
theorem c3_witness :
    (splitOnChar '/' "a/b.txt").all goodComponent = true ∧
      (["out"] : FPath) <+: ["out", "a", "b.txt"] :=
  c3_sanitization.1 ["out"] "a/b.txt" ["out", "a", "b.txt"] (by decide)

/-! ## Claims C9 and C10: rename-candidate search -/

/-- `find?` over `range'` returns the least satisfying index. -/
theorem find?_range'_least (p : Nat → Bool) (k : Nat) :
    ∀ (s n : Nat), s ≤ k → k < s + n → p k = true →
      (∀ j, s ≤ j → j < k → p j = false) →
      (List.range' s n).find? p = some k := by
  intro s n
  induction n generalizing s with
  | zero => omega
  | succ n ih =>
    intro hsk hkn hpk hmin
    rw [List.range'_succ]
    by_cases hs : k = s
    · subst hs
      rw [List.find?_cons_of_pos _ hpk]
    · rw [List.find?_cons_of_neg _ (by simp [hmin s le_rfl (by omega)])]
      exact ih (s + 1) (by omega) (by omega) hpk
        (fun j h1 h2 => hmin j (by omega) h2)

/-- Claim C9: under `Rename`, when the base path exists and some
candidate index in `[1, 1000)` is free, `find_available_path` picks the
candidate of the smallest free index. -/
theorem c9_rename_first_free (fsE : FPath → Bool) (base : FPath) (k : Nat)
    (h1 : 1 ≤ k) (h2 : k < 1000) (hb : fsE base = true)
    (hk : fsE (renameCandidate base k) = false)
    (hmin : ∀ j, 1 ≤ j → j < k → fsE (renameCandidate base j) = true) :
    findAvailablePath fsE base = renameCandidate base k ∧
      resolveTarget fsE .rename base = .proceed (renameCandidate base k) := by
  have hfind : (List.range' 1 999).find?
      (fun j => !fsE (renameCandidate base j)) = some k := by
    refine find?_range'_least _ k 1 999 h1 (by omega) (by simp [hk]) ?_
    intro j hj1 hj2
    simp [hmin j hj1 hj2]
  have hres : findAvailablePath fsE base = renameCandidate base k := by
    rw [findAvailablePath, if_neg (by simp [hb]), hfind]
  refine ⟨hres, ?_⟩
  rw [resolveTarget, if_pos hb, hres]

/-- Witness for C9: `f.txt` and `f (1).txt` exist, `f (2).txt` does not;
the chosen target is `f (2).txt`. -/
theorem c9_witness :
    findAvailablePath
        (fun p => decide (p = ["out", "f.txt"] ∨ p = ["out", "f (1).txt"]))
        ["out", "f.txt"] =
      renameCandidate ["out", "f.txt"] 2 ∧
    resolveTarget
        (fun p => decide (p = ["out", "f.txt"] ∨ p = ["out", "f (1).txt"]))
        .rename ["out", "f.txt"] = .proceed (renameCandidate ["out", "f.txt"] 2) :=
  c9_rename_first_free _ _ 2 (by decide) (by decide) (by decide) (by decide)
    (fun j hj1 hj2 => by
      have hj : j = 1 := by omega
      subst hj
      decide)

/-- Claim C10: when the base path and all 999 rename candidates exist,
`find_available_path` falls through to the base path itself, which
exists, so under `Rename` the export proceeds onto the pre-existing
file. -/
theorem c10_rename_exhausted (fsE : FPath → Bool) (base : FPath)
    (hb : fsE base = true)
    (hall : ∀ k, 1 ≤ k → k < 1000 → fsE (renameCandidate base k) = true) :
    findAvailablePath fsE base = base ∧ fsE (findAvailablePath fsE base) = true ∧
      resolveTarget fsE .rename base = .proceed base := by
  have hfind : (List.range' 1 999).find?
      (fun j => !fsE (renameCandidate base j)) = none := by
    rw [List.find?_eq_none]
    intro j hj
    rw [List.mem_range'_1] at hj
    simp [hall j hj.1 (by omega)]
  have hres : findAvailablePath fsE base = base := by
    rw [findAvailablePath, if_neg (by simp [hb]), hfind]
  refine ⟨hres, by rw [hres]; exact hb, ?_⟩
  rw [resolveTarget, if_pos hb, hres]

/-- Witness for C10 with an everything-exists filesystem. -/
theorem c10_witness :
    findAvailablePath (fun _ => true) ["out", "f.txt"] = ["out", "f.txt"] ∧
    (fun (_ : FPath) => true) (findAvailablePath (fun _ => true) ["out", "f.txt"]) = true ∧
    resolveTarget (fun _ => true) .rename ["out", "f.txt"] =
      .proceed ["out", "f.txt"] :=
  c10_rename_exhausted (fun _ => true) ["out", "f.txt"] rfl
    (fun _ _ _ => rfl)

/-! ## Claim C4: duplicate TransferIds -/

theorem assocLookup_insertReplace {α : Type} [DecidableEq α] (k : α) (v : Nat)
    (m : List (α × Nat)) : assocLookup k (insertReplace k v m) = some v := by
  induction m with
  | nil => simp [insertReplace, assocLookup]
  | cons kv t ih =>
    obtain ⟨k', v'⟩ := kv
    rw [insertReplace]
    by_cases h : k' = k
    · simp [h, assocLookup]
    · simp only [h, if_false, ite_false]
      rw [assocLookup, if_neg h]
      exact ih

theorem insertReplace_length_of_mem {α : Type} [DecidableEq α] {k : α} {t0 : Nat}
    (v : Nat) {m : List (α × Nat)} (h : assocLookup k m = some t0) :
    (insertReplace k v m).length = m.length := by
  induction m with
  | nil => simp [assocLookup] at h
  | cons kv t ih =>
    obtain ⟨k', v'⟩ := kv
    rw [assocLookup] at h
    rw [insertReplace]
    by_cases hk : k' = k
    · simp [hk]
    · rw [if_neg hk] at h ⊢
      simp [ih h]

/-- C4 counterexample state: two `Send` commands with the same id `"a"`
arriving with free slots (the configured default limit, 50). -/
def c4State : MState := handleSend 50 "a" (handleSend 50 "a" MState.init)

/-- Claim C4 is false on the code: after a duplicate `Send{"a"}`, the
active table maps `"a"` to the *second* spawned task (task 1), not the
first (task 0), and two tasks were spawned under the same id — the
duplicate was neither rejected nor resolved in favour of the first. -/
theorem c4_counterexample :
    assocLookup "a" c4State.active = some 1 ∧
    c4State.spawned = [("a", 0), ("a", 1)] ∧
    ¬(assocLookup "a" c4State.active = some 0 ∨ c4State.spawned.length ≤ 1) := by
  decide

/-- Claim C4 as amended: when a `Send`/`Receive` command arrives with an
id that already has an active task and a slot is free, the orchestrator
spawns a second task under that id and `HashMap::insert` replaces the
table entry, keeping the *last*-registered task; the earlier task keeps
running untracked (its handle and token are dropped, not cancelled). -/
theorem c4_amended (maxConc : Nat) (s : MState) (id : String) (t0 : Nat)
    (hfree : s.active.length < maxConc)
    (hdup : assocLookup id s.active = some t0) :
    assocLookup id (handleSend maxConc id s).active = some s.nextTask ∧
    (handleSend maxConc id s).spawned = s.spawned ++ [(id, s.nextTask)] ∧
    (handleSend maxConc id s).active.length = s.active.length := by
  rw [handleSend, if_pos hfree]
  exact ⟨assocLookup_insertReplace id s.nextTask s.active, rfl,
    insertReplace_length_of_mem s.nextTask hdup⟩

/-- Witness for C4's amended claim at a concrete duplicated state. -/
theorem c4_amended_witness :
    assocLookup "a" (handleSend 50 "a"
      (⟨[("a", 0)], [], 1, [("a", 0)], []⟩ : MState)).active = some 1 ∧
    (handleSend 50 "a" (⟨[("a", 0)], [], 1, [("a", 0)], []⟩ : MState)).spawned =
      [("a", 0)] ++ [("a", 1)] ∧
    (handleSend 50 "a" (⟨[("a", 0)], [], 1, [("a", 0)], []⟩ : MState)).active.length =
      ([("a", 0)] : List (String × Nat)).length :=
  c4_amended 50 ⟨[("a", 0)], [], 1, [("a", 0)], []⟩ "a" 0 (by decide) (by decide)

/-! ## Claim C7: queue positions -/

theorem lastQueuedPos_append_queued (evs : List MEvent) (j : String) (p : Nat)
    (i : String) :
    lastQueuedPos (evs ++ [.queued j p]) i =
      if j = i then some p else lastQueuedPos evs i := by
  by_cases h : j = i
  · simp [lastQueuedPos, List.filterMap_append, h, List.getLast?_concat]
  · simp [lastQueuedPos, List.filterMap_append, h]

/-- After a re-emission pass, ids outside the queue keep their last
position, and the id at (0-based) index `i` reads position `n + i + 1`. -/
theorem lastQueuedPos_reEmitFrom (rest : List String) :
    ∀ (evs : List MEvent) (n : Nat), rest.Nodup →
      (∀ id, id ∉ rest →
        lastQueuedPos (evs ++ reEmitFrom n rest) id = lastQueuedPos evs id) ∧
      (∀ i, i < rest.length →
        lastQueuedPos (evs ++ reEmitFrom n rest) (rest.getD i "") =
          some (n + i + 1)) := by
  induction rest with
  | nil =>
    intro evs n _
    exact ⟨fun id _ => by simp [reEmitFrom], fun i h => by simp at h⟩
  | cons x t ih =>
    intro evs n hnd
    have hx : x ∉ t := (List.nodup_cons.mp hnd).1
    have hnd' : t.Nodup := (List.nodup_cons.mp hnd).2
    have hre : evs ++ reEmitFrom n (x :: t) =
        (evs ++ [.queued x (n + 1)]) ++ reEmitFrom (n + 1) t := by
      simp [reEmitFrom]
    constructor
    · intro id hid
      simp only [List.mem_cons, not_or] at hid
      rw [hre, (ih _ _ hnd').1 id hid.2, lastQueuedPos_append_queued,
        if_neg (fun h => hid.1 h.symm)]
    · intro i h
      cases i with
      | zero =>
        rw [hre, show (x :: t).getD 0 "" = x from rfl,
          (ih _ _ hnd').1 x hx, lastQueuedPos_append_queued, if_pos rfl]
      | succ i' =>
        rw [hre, show (x :: t).getD (i' + 1) "" = t.getD i' "" from rfl,
          (ih _ _ hnd').2 i' (by simpa using h)]
        congr 1
        omega

/-- The 1-based-position invariant of one orchestrator direction. -/
def queueInv (s : MState) : Prop :=
  s.queue.Nodup ∧
    ∀ i, i < s.queue.length →
      lastQueuedPos s.events (s.queue.getD i "") = some (i + 1)

/-- The invariant survives one promotion. -/
theorem queueInv_promoteOnce {s : MState} (h : queueInv s) :
    queueInv (promoteOnce s) := by
  obtain ⟨act, q, nt, sp, ev⟩ := s
  obtain ⟨h1, h2⟩ := h
  cases q with
  | nil => exact ⟨h1, h2⟩
  | cons x t =>
    have hnd' : t.Nodup := (List.nodup_cons.mp h1).2
    refine ⟨hnd', ?_⟩
    intro i hi
    have := (lastQueuedPos_reEmitFrom t ev 0 hnd').2 i hi
    simpa [promoteOnce, startTask] using this

/-- The invariant survives the whole promotion loop. -/
theorem queueInv_promoteAux (maxConc : Nat) (fuel : Nat) :
    ∀ s : MState, queueInv s → queueInv (promoteAux maxConc fuel s) := by
  induction fuel with
  | zero => intro s h; exact h
  | succ f ih =>
    intro s h
    rw [promoteAux]
    by_cases hc : s.active.length < maxConc ∧ s.queue ≠ []
    · rw [if_pos hc]
      exact ih _ (queueInv_promoteOnce h)
    · rw [if_neg hc]
      exact h

/-- The invariant survives a fresh enqueue or an immediate start. -/
theorem queueInv_handleSend (maxConc : Nat) (id : String) {s : MState}
    (hfresh : id ∉ s.queue) (h : queueInv s) :
    queueInv (handleSend maxConc id s) := by
  obtain ⟨h1, h2⟩ := h
  rw [handleSend]
  by_cases hc : s.active.length < maxConc
  · rw [if_pos hc]
    exact ⟨h1, h2⟩
  · rw [if_neg hc]
    constructor
    · refine List.Nodup.append h1 (List.nodup_singleton id) ?_
      intro a ha hmem
      simp only [List.mem_singleton] at hmem
      subst hmem
      exact hfresh ha
    · intro i hi
      simp only [List.length_append, List.length_singleton] at hi
      rw [lastQueuedPos_append_queued]
      by_cases hlt : i < s.queue.length
      · have hmem : s.queue.getD i "" ∈ s.queue := by
          rw [List.getD_eq_getElem _ _ hlt]
          exact List.getElem_mem hlt
        rw [List.getD_append _ _ _ _ hlt,
          if_neg (fun hh => hfresh (by rw [hh]; exact hmem))]
        exact h2 i hlt
      · have hieq : i = s.queue.length := by omega
        subst hieq
        rw [List.getD_append_right _ _ _ _ (le_refl _)]
        simp

/-- Claim C7 as amended: for every state reachable through enqueues,
reaps and promotions (no cancellation of queued ids; enqueued ids fresh,
as the UI's uuid ids are), every queued id's most recent `Queued` event
carries its current 1-based queue index.  On enqueue the emitted
position is the new queue length, and after each promotion positions are
re-emitted; a `Cancel` of a queued id, however, removes it *without*
re-emitting positions, so the invariant can break until the next
promotion (see the counterexample). -/
theorem c7_amended (maxConc : Nat) (s : MState) (h : ReachNC maxConc s) :
    s.queue.Nodup ∧
      ∀ i, i < s.queue.length →
        lastQueuedPos s.events (s.queue.getD i "") = some (i + 1) := by
  induction h with
  | init => exact ⟨List.nodup_nil, fun i hi => by simp [MState.init] at hi⟩
  | send id hr hfresh ih => exact queueInv_handleSend _ id hfresh ih
  | reap fin hr ih => exact ih
  | promote hr ih => exact queueInv_promoteAux _ _ _ ih

/-- C7 counterexample state: `max_concurrent = 1`; `a` starts, `b, c, d`
queue at positions 1, 2, 3; then `Cancel{"c"}` arrives. -/
def c7State : MState :=
  handleCancel "c" (handleSend 1 "d" (handleSend 1 "c" (handleSend 1 "b"
    (handleSend 1 "a" MState.init))))

/-- Claim C7 is false on the code: after cancelling queued `"c"`, `"d"`
sits at 1-based position 2 of the FIFO queue but its most recent
`Queued` event still reports position 3 (no re-emission on queue
cancellation). -/
theorem c7_counterexample :
    c7State.queue = ["b", "d"] ∧
    c7State.queue.getD 1 "" = "d" ∧
    lastQueuedPos c7State.events "d" = some 3 ∧
    ¬lastQueuedPos c7State.events "d" = some (1 + 1) := by decide

/-- Witness for C7's amended claim at a concrete reachable state
(`max_concurrent = 1`, commands `Send{"a"}` then `Send{"b"}`). -/
theorem c7_witness :
    (handleSend 1 "b" (handleSend 1 "a" MState.init)).queue.Nodup ∧
      ∀ i, i < (handleSend 1 "b" (handleSend 1 "a" MState.init)).queue.length →
        lastQueuedPos (handleSend 1 "b" (handleSend 1 "a" MState.init)).events
          ((handleSend 1 "b" (handleSend 1 "a" MState.init)).queue.getD i "") =
          some (i + 1) :=
  c7_amended 1 _ (ReachNC.send "b"
    (ReachNC.send "a" ReachNC.init (by decide)) (by decide))

/-! ## Claim C8: empty Send path list -/

/-- An otherwise-benign send environment. -/
def c8Env : SendEnv :=
  { walk := fun _ => some [], importOk := fun _ => true, storeOk := true,
    bindOk := true, ticketStr := "ticket", durTicks := 7 }

/-- Claim C8 is false on the code: a `Send` command with an empty path
list is *not* rejected — `SendTask::run` emits `Preparing{"Importing
files..."}` first and then proceeds through every phase (here up to the
event loop), publishing a ticket for an empty collection. -/
theorem c8_counterexample :
    (sendRun "t" c8Env [] []).1 =
      [Event.preparing "t" "Importing files...",
       Event.preparing "t" "Creating endpoint...",
       Event.preparing "t" "Joining relay network...",
       Event.ticketReady "t" "ticket",
       Event.started "t" "0 items" 0,
       Event.connecting "t"] ∧
    (sendRun "t" c8Env [] []).2 = .outOfSteps := by decide

/-- Claim C8 as amended: the empty-path rejection lives in the UI —
`start_send_action` returns no action for an empty selection, so no
`Send` command is issued and no event is emitted; but a `Send` command
with an empty path list that does reach the orchestrator is not
rejected: the send task's first act is to emit `Preparing` for that
id. -/
theorem c8_amended :
    startSendAction [] = none ∧
    ∀ (id : String) (env : SendEnv) (steps : List SendStep),
      (sendRun id env [] steps).1.head? =
        some (Event.preparing id "Importing files...") := by
  refine ⟨rfl, ?_⟩
  intro id env steps
  rw [sendRun]
  rcases importFiles env [] with e | ⟨files, total, name⟩
  · rfl
  · simp only []
    split
    · rfl
    · rcases sendLoop id (files.length + 1) steps
        ⟨false, false, [], [], SpeedTracker.defaultWindow⟩ with ⟨ltr, _ | c⟩
      · rfl
      · cases c <;> rfl

/-! ## Claim C2: connect timeout emits no Failed event (code bug) -/

/-- A receive environment whose connect attempt times out. -/
def c2Env : RecvEnv :=
  { endpointOk := true, connect := .timeout, sizes := none, avail := none,
    localQueryOk := true, localComplete := true, metaGetOk := true,
    loadOk := true, coll := [], fsE := fun _ => false, resolution := none,
    entries := [], durTicks := 0 }

/-- `Failed` events. -/
def isFailed : Event → Bool
  | .failed _ _ => true
  | _ => false

/-- Number of `Failed` events in a trace. -/
def countFailed (l : List Event) : Nat := l.countP (fun e => isFailed e)

/-- On a connect timeout the receive task terminates having emitted only
`Preparing` and `Connecting`: no `Failed{error}` (and no terminal event
at all) is ever sent for its id — the error is only logged by the
orchestrator's spawn wrapper. -/
theorem c2_connect_timeout_no_failed :
    (receiveRun "t" ["out"] c2Env).1 =
      [Event.preparing "t" "Creating endpoint...", Event.connecting "t"] ∧
    (receiveRun "t" ["out"] c2Env).2 = .errConnectTimeout ∧
    countFailed (receiveRun "t" ["out"] c2Env).1 = 0 ∧
    countTerm (receiveRun "t" ["out"] c2Env).1 = 0 := by decide

/-! ## Claim C5: disk-space check -/

theorem countFailed_noTerm {l : List Event} (h : noTerm l = true) :
    countFailed l = 0 := by
  simp only [noTerm, List.all_eq_true] at h
  rw [countFailed, List.countP_eq_zero]
  intro a ha
  have hterm := h a ha
  cases a <;> simp_all [isFailed, Event.isTerminal]

theorem countFailed_exitEvents (id : String) (p d : Nat) (x : RecvExit)
    (hx : x ≠ .failedDisk) : countFailed (recvExitEvents id p d x) = 0 := by
  cases x <;>
    simp_all [recvExitEvents, countFailed, isFailed]

theorem recvAfterRes_exit_ne_failedDisk (id : String) (outDir : FPath)
    (env : RecvEnv) (p tf : Nat) (res : CRes) (t : List Event) :
    (recvAfterRes id outDir env p tf res t).2 ≠ RecvExit.failedDisk := by
  rw [recvAfterRes]
  split
  · simp
  · split <;> simp

/-- Claim C5: in a receive whose connect, size fetch and free-space query
succeed, the task's exit is the disk-space `Failed` path exactly when
the free space is strictly below `payload_size + 1 GiB` (payload = sum
of the fetched sizes minus the first, metadata, element), and exactly
one `Failed` event is emitted in that case, none otherwise.  In
particular at `free = payload_size + 1 GiB` it proceeds and one byte
below it fails. -/
theorem c5_disk_check (id : String) (outDir : FPath) (env : RecvEnv)
    (known relay : Bool) (szs : List Nat) (free : Nat)
    (he : env.endpointOk = true)
    (hc : env.connect = .ok known relay)
    (hs : env.sizes = some szs)
    (ha : env.avail = some free) :
    ((receiveRun id outDir env).2 = .failedDisk ↔
      free < (szs.drop 1).sum + MIN_FREE_SPACE) ∧
    countFailed (receiveRun id outDir env).1 =
      (if free < (szs.drop 1).sum + MIN_FREE_SPACE then 1 else 0) := by
  have hexit : (receiveRun id outDir env).2 = .failedDisk ↔
      free < (szs.drop 1).sum + MIN_FREE_SPACE := by
    rw [receiveRun]
    simp only [he, hc, hs, ha, Bool.not_true]
    rw [if_neg (by simp)]
    simp only [List.drop_one]
    by_cases hlt : free < szs.tail.sum + MIN_FREE_SPACE
    · rw [if_pos hlt]
      simp [hlt]
    · rw [if_neg hlt]
      refine iff_of_false ?_ hlt
      split
      · simp
      · split
        · simp
        · split
          · simp
          · split
            · simp
            · split
              · apply recvAfterRes_exit_ne_failedDisk
              · split
                · simp
                · apply recvAfterRes_exit_ne_failedDisk
  refine ⟨hexit, ?_⟩
  obtain ⟨A, hA, htr⟩ := receiveRun_shape id outDir env
  have hsplit : countFailed (receiveRun id outDir env).1 =
      countFailed A + countFailed (recvExitEvents id (payloadOf env)
        env.durTicks (receiveRun id outDir env).2) := by
    rw [htr, countFailed, List.countP_append]
    rfl
  rw [hsplit, countFailed_noTerm hA, Nat.zero_add]
  by_cases hlt : free < (szs.drop 1).sum + MIN_FREE_SPACE
  · rw [if_pos hlt, hexit.mpr hlt]
    rfl
  · rw [if_neg hlt, countFailed_exitEvents _ _ _ _
      (fun h => hlt (hexit.mp h))]

/-- A concrete C5 environment: `sizes = [5, 10]` (payload 10), free
space a parameter. -/
def c5EnvAt (free : Nat) : RecvEnv :=
  { endpointOk := true, connect := .ok true false, sizes := some [5, 10],
    avail := some free, localQueryOk := false, localComplete := true,
    metaGetOk := true, loadOk := true, coll := [], fsE := fun _ => false,
    resolution := none, entries := [], durTicks := 0 }

/-- Witness for C5 at the two boundary inputs: free space exactly
`payload + 1 GiB` (proceeds) and one byte below (fails). -/
theorem c5_witness :
    ((((receiveRun "t" ["out"] (c5EnvAt (10 + MIN_FREE_SPACE))).2 = .failedDisk ↔
        10 + MIN_FREE_SPACE < (([5, 10] : List Nat).drop 1).sum + MIN_FREE_SPACE) ∧
      countFailed (receiveRun "t" ["out"] (c5EnvAt (10 + MIN_FREE_SPACE))).1 =
        (if 10 + MIN_FREE_SPACE < (([5, 10] : List Nat).drop 1).sum + MIN_FREE_SPACE
         then 1 else 0)) ∧
     (((receiveRun "t" ["out"] (c5EnvAt (9 + MIN_FREE_SPACE))).2 = .failedDisk ↔
        9 + MIN_FREE_SPACE < (([5, 10] : List Nat).drop 1).sum + MIN_FREE_SPACE) ∧
      countFailed (receiveRun "t" ["out"] (c5EnvAt (9 + MIN_FREE_SPACE))).1 =
        (if 9 + MIN_FREE_SPACE < (([5, 10] : List Nat).drop 1).sum + MIN_FREE_SPACE
         then 1 else 0))) :=
  ⟨c5_disk_check "t" ["out"] _ true false [5, 10] (10 + MIN_FREE_SPACE)
      rfl rfl rfl rfl,
   c5_disk_check "t" ["out"] _ true false [5, 10] (9 + MIN_FREE_SPACE)
      rfl rfl rfl rfl⟩

/-! ## Claim C1: terminal events -/

theorem recvExitEvents_len (id : String) (p d : Nat) (x : RecvExit) :
    (recvExitEvents id p d x).length ≤ 1 := by
  cases x <;> simp [recvExitEvents]

theorem countTerm_recvExitEvents (id : String) (p d : Nat) (x : RecvExit) :
    countTerm (recvExitEvents id p d x) =
      (if x.terminalEmitted then 1 else 0) := by
  cases x <;>
    simp [recvExitEvents, countTerm, RecvExit.terminalEmitted, Event.isTerminal]

theorem sendExitEvents_len (id : String) (t d : Nat) (x : SendExit) :
    (sendExitEvents id t d x).length ≤ 1 := by
  cases x with
  | finished c => cases c <;> simp [sendExitEvents]
  | _ => simp [sendExitEvents]

theorem countTerm_sendExitEvents (id : String) (t d : Nat) (x : SendExit) :
    countTerm (sendExitEvents id t d x) =
      (if x.terminalEmitted then 1 else 0) := by
  cases x with
  | finished c =>
    cases c <;>
      simp [sendExitEvents, countTerm, SendExit.terminalEmitted, Event.isTerminal]
  | _ => simp [sendExitEvents, countTerm, SendExit.terminalEmitted]

theorem dropLast_noTerm_of_shape {A E : List Event} (hA : noTerm A = true)
    (hE : E.length ≤ 1) : noTerm (A ++ E).dropLast = true := by
  rcases E with _ | ⟨t, _ | ⟨u, rest⟩⟩
  · simpa using noTerm_dropLast hA
  · rw [List.dropLast_concat]
    exact hA
  · simp at hE

/-- Claim C1 as amended: per task trace, any terminal event is the final
event (so at most one is emitted and nothing with that id follows), and
exactly one terminal event is emitted precisely on the exit paths that
reach one — for the receiver, the disk-space failure, a `Cancel`
resolution, an export cancellation, or completion; for the sender, a
loop break (cancel or done).  Error returns (`?` / `bail!`) other than
the disk-space check, and a receive whose resolution inbox closes
unreplied, terminate with no terminal event. -/
theorem c1_amended :
    (∀ (id : String) (outDir : FPath) (env : RecvEnv),
      noTerm (receiveRun id outDir env).1.dropLast = true ∧
      countTerm (receiveRun id outDir env).1 =
        (if (receiveRun id outDir env).2.terminalEmitted then 1 else 0)) ∧
    (∀ (id : String) (env : SendEnv) (paths : List FPath)
        (steps : List SendStep),
      noTerm (sendRun id env paths steps).1.dropLast = true ∧
      countTerm (sendRun id env paths steps).1 =
        (if (sendRun id env paths steps).2.terminalEmitted then 1 else 0)) := by
  constructor
  · intro id outDir env
    obtain ⟨A, hA, htr⟩ := receiveRun_shape id outDir env
    rw [htr]
    refine ⟨dropLast_noTerm_of_shape hA (recvExitEvents_len _ _ _ _), ?_⟩
    have hct : countTerm (A ++ recvExitEvents id (payloadOf env) env.durTicks
        (receiveRun id outDir env).2) =
        countTerm A + countTerm (recvExitEvents id (payloadOf env) env.durTicks
          (receiveRun id outDir env).2) := by
      simp [countTerm, List.countP_append]
    rw [hct, countTerm_noTerm hA, countTerm_recvExitEvents, Nat.zero_add]
  · intro id env paths steps
    obtain ⟨A, hA, htr⟩ := sendRun_shape id env paths steps
    rw [htr]
    refine ⟨dropLast_noTerm_of_shape hA (sendExitEvents_len _ _ _ _), ?_⟩
    have hct : countTerm (A ++ sendExitEvents id (sendTotalOf env paths)
        env.durTicks (sendRun id env paths steps).2) =
        countTerm A + countTerm (sendExitEvents id (sendTotalOf env paths)
          env.durTicks (sendRun id env paths steps).2) := by
      simp [countTerm, List.countP_append]
    rw [hct, countTerm_noTerm hA, countTerm_sendExitEvents, Nat.zero_add]

/-- C1 counterexample environment: a receive that finds a conflict
(`a.txt` already exists) and whose resolution inbox closes unreplied. -/
def c1Env : RecvEnv :=
  { endpointOk := true, connect := .ok true false, sizes := some [10, 5],
    avail := some 1073741829, localQueryOk := true, localComplete := true,
    metaGetOk := true, loadOk := true, coll := ["a.txt"],
    fsE := fun p => decide (p = ["out", "a.txt"]), resolution := none,
    entries := [], durTicks := 0 }

/-- Claim C1 is false on the code: this receive task terminates (the
silent inbox-closed `return Ok(())` of src/transfer/receiver.rs line
273) having emitted *zero* terminal events, not exactly one. -/
theorem c1_counterexample :
    (receiveRun "t" ["out"] c1Env).2 = .silentInbox ∧
    countTerm (receiveRun "t" ["out"] c1Env).1 = 0 ∧
    ¬countTerm (receiveRun "t" ["out"] c1Env).1 = 1 := by decide
